import Mathlib

/-!
Verification of the `mcp_api_registry_http` repository against its
natural-language specification.

The development shallowly embeds the parts of the program the claims are
about:

* the frontend credential dialog and chat request flow of the agent chat
  page (the large unnamed TSX source, `ChatPageAgent`);
* the registry data model (the Delta table schema in
  `setup_api_http_registry_table.sql` and the generated client model
  `RegisteredAPI`);
* the connection registry, call executor and tool dispatch bridge.  The
  server module holding these (`server/tools.py` in the project layout) is
  not part of the provided sources, so those operations are modelled from
  the specification, as flagged in their doc comments;
* the registry page's edit/update request (`RegistryPage.tsx`);
* the free-text tool-sequence rules of `prompts/api_registry_workflow.md`.
-/

namespace McpApiRegistry

/-! ## Frontend credential dialog (ChatPageAgent) -/

/-- Log line emitted by the credential submit handler: the
`console.log` of the credential type. -/
def credentialTypeLog (credentialType : String) : String :=
  "🔐 [Frontend] Credential type: " ++ credentialType

/-- Log line emitted by the credential submit handler: the length of the
raw credential value. -/
def credentialLengthLog (credentialValue : String) : String :=
  "🔐 [Frontend] Credential value length: " ++ toString credentialValue.length ++ " chars"

/-- Log line emitted by the credential submit handler: a preview of the raw
credential value, `credentialValue.substring(0, 10)` followed by an
ellipsis. -/
def credentialPreviewLog (credentialValue : String) : String :=
  "🔐 [Frontend] Credential preview: " ++ credentialValue.take 10 ++ "..."

/-- A chat message as kept in the page state and sent to `/api/agent/chat`. -/
structure ChatMessage where
  role : String
  content : String
deriving DecidableEq

/-- Credential map: the `storedCredentials` object, keys are
`api_key` / `bearer_token`. -/
abbrev CredMap := List (String × String)

/-- Object-spread update `\x7b...stored, [k]: v\x7d`: the key `k` now maps to `v`,
other keys are unchanged. -/
def insertCred (m : CredMap) (k v : String) : CredMap :=
  (k, v) :: m.filter (fun p => p.1 ≠ k)

/-- Body of a POST to `/api/agent/chat`: the conversation messages plus the
`credentials` metadata field. -/
structure ChatRequestBody where
  messages : List ChatMessage
  credentials : CredMap
deriving DecidableEq

/-- The page state relevant to credential handling: the message list, the
session-scoped `storedCredentials` store, and the dialog input field
`credentialValue`. -/
structure FrontendState where
  messages : List ChatMessage
  storedCredentials : CredMap
  credentialValue : String
deriving DecidableEq

/-- `sendMessage`: appends the typed message (and a temporary assistant
placeholder) and posts a body whose `credentials` field is the session
store. -/
def sendMessage (st : FrontendState) (input : String) :
    FrontendState × ChatRequestBody :=
  let userMessage : ChatMessage := ⟨"user", input⟩
  ({ st with messages := st.messages ++ [userMessage, ⟨"assistant", "Thinking..."⟩] },
   { messages := st.messages ++ [userMessage], credentials := st.storedCredentials })

/-- Label used in the sanitized message: `API key` or `bearer token`. -/
def credTypeLabel (t : String) : String :=
  if t = "api_key" then "API key" else "bearer token"

/-- The ` for <api>` fragment, empty when no API name is pending. -/
def forApi (pendingApiName : String) : String :=
  if pendingApiName = "" then "" else " for " ++ pendingApiName

/-- The `safeMessage` the submit handler places into the conversation in
place of the credential: built from the credential type, the pending API
name and the selected endpoints, never from the credential value. -/
def safeMessageText (requiresAuth : Bool) (credentialType pendingApiName : String)
    (selectedEndpointsList : String) (numSelected : Nat) : String :=
  if numSelected > 0 then
    if requiresAuth then
      "I\x27ve securely provided my " ++ credTypeLabel credentialType ++ forApi pendingApiName
        ++ ". Please register these " ++ toString numSelected ++ " endpoint(s): "
        ++ selectedEndpointsList
    else
      "Please register these " ++ toString numSelected ++ " endpoint(s) for "
        ++ (if pendingApiName = "" then "the API" else pendingApiName) ++ ": "
        ++ selectedEndpointsList
  else
    if requiresAuth then
      "I\x27ve securely provided my " ++ credTypeLabel credentialType
        ++ forApi pendingApiName ++ "."
    else
      "Ready to register " ++ (if pendingApiName = "" then "the API" else pendingApiName) ++ "."

/-- JavaScript `String.prototype.trim`: strips leading and trailing
whitespace (used in the `!credentialValue.trim()` guard). -/
def jsTrim (s : String) : String :=
  ⟨((s.data.dropWhile Char.isWhitespace).reverse.dropWhile Char.isWhitespace).reverse⟩

/-- The credential dialog submit `onClick`: early-returns when auth is
required but the field is blank; otherwise updates the session credential
store, clears the input field, appends the sanitized message, and posts
the chat request carrying the updated credentials as metadata. -/
def submitCredential (st : FrontendState) (requiresAuth : Bool)
    (credentialType value pendingApiName selectedEndpointsList : String)
    (numSelected : Nat) : Option (FrontendState × ChatRequestBody) :=
  if requiresAuth ∧ jsTrim value = "" then none
  else
    let updatedCredentials :=
      if requiresAuth then insertCred st.storedCredentials credentialType value
      else st.storedCredentials
    let newStored := if requiresAuth then updatedCredentials else st.storedCredentials
    let msg : ChatMessage :=
      ⟨"user", safeMessageText requiresAuth credentialType pendingApiName
          selectedEndpointsList numSelected⟩
    some ({ messages := st.messages ++ [msg, ⟨"assistant", "Thinking..."⟩],
            storedCredentials := newStored,
            credentialValue := "" },
          { messages := st.messages ++ [msg], credentials := updatedCredentials })

/-! ## Data model: auth flavors, connections, registry entries -/

/-- The closed set of authentication flavors, from the table schema comment
(`auth_type`: `none`, `api_key`, or `bearer_token`). -/
inductive AuthFlavor
  | noAuth
  | apiKey
  | bearerToken
deriving DecidableEq

/-- A UC HTTP connection as the spec abstracts it: logical name, host
(scheme plus authority), base path, auth flavor and the optional secret
scope reference. -/
structure Connection where
  name : String
  host : String
  basePath : String
  authFlavor : AuthFlavor
  secretScope : Option String
deriving DecidableEq

/-- A registry entry, following the `api_http_registry` table schema and the
generated client model `RegisteredAPI`. -/
structure RegistryEntry where
  api_id : String
  api_name : String
  description : Option String
  connection_name : String
  host : String
  base_path : Option String
  auth_type : AuthFlavor
  secret_scope : Option String
  documentation_url : Option String
  available_endpoints : Option String
  example_calls : Option String
  status : Option String
  user_who_requested : Option String
  created_at : Option String
  modified_date : Option String
  validation_message : Option String
deriving DecidableEq

/-- One stored secret: scope, key and raw value (the secret store is a
list of such entries, most recent first). -/
structure SecretEntry where
  scope : String
  key : String
  value : String
deriving DecidableEq

/-- The shared mutable state: connections, registry entries and the secret
store. -/
structure RegState where
  conns : List Connection
  entries : List RegistryEntry
  secrets : List SecretEntry
deriving DecidableEq

/-- The two conventional secret scopes: `mcp_api_keys` for API-key-flavor
secrets, `mcp_bearer_tokens` for bearer-token-flavor secrets, none for
public APIs (table schema comment and the debug query
`expected_secret_reference`). -/
def scopeForFlavor : AuthFlavor → Option String
  | .noAuth => none
  | .apiKey => some "mcp_api_keys"
  | .bearerToken => some "mcp_bearer_tokens"

/-- Error taxonomy of the registration operations (spec section 7). -/
inductive RegError
  | duplicateName
  | missingCredential
  | notFound
  | connectionInUse
deriving DecidableEq

/-- Errors of the call executor visible in this model. -/
inductive CallError
  | notFound
  | missingSecret
deriving DecidableEq

/-- The outbound request description the executor produces; `authApplied`
is the boolean flag reported instead of the secret. -/
structure HttpRequest where
  method : String
  url : String
  params : List (String × String)
  headers : List (String × String)
  authApplied : Bool
deriving DecidableEq

/-! ## Connection registry and call executor

The server module implementing these operations is not among the provided
sources (only its callers, prompts and table schema are), so they are
modelled from the specification. -/

/-- Resolve a connection by name. -/
def resolveConn (conns : List Connection) (name : String) : Option Connection :=
  conns.find? (fun c => c.name = name)

/-- Secret store `get(scope, key)`. -/
def getSecret (secrets : List SecretEntry) (scope key : String) : Option String :=
  (secrets.find? (fun s => s.scope = scope ∧ s.key = key)).map (fun s => s.value)

/-- Modelled from the spec: `createConnection(name, host, authFlavor,
rawSecret?)` (section 4.1).  Fails with `duplicateName` when the name
exists; for an authenticated flavor requires a raw secret
(`missingCredential` otherwise) and writes it to the flavor's conventional
scope under the key `name`; the stored connection carries
`https://host`, the base path and the secret scope reference, never the
raw secret. -/
def createConnection (st : RegState) (name host basePath : String)
    (flavor : AuthFlavor) (rawSecret : Option String) : Except RegError RegState :=
  if st.conns.any (fun c => c.name = name) then .error .duplicateName
  else
    match flavor with
    | .noAuth =>
        .ok { st with conns :=
          { name := name, host := "https://" ++ host, basePath := basePath,
            authFlavor := .noAuth, secretScope := none } :: st.conns }
    | .apiKey =>
        match rawSecret with
        | none => .error .missingCredential
        | some raw =>
            .ok { st with
              conns :=
                { name := name, host := "https://" ++ host, basePath := basePath,
                  authFlavor := .apiKey, secretScope := some "mcp_api_keys" } :: st.conns,
              secrets := ⟨"mcp_api_keys", name, raw⟩ :: st.secrets }
    | .bearerToken =>
        match rawSecret with
        | none => .error .missingCredential
        | some raw =>
            .ok { st with
              conns :=
                { name := name, host := "https://" ++ host, basePath := basePath,
                  authFlavor := .bearerToken, secretScope := some "mcp_bearer_tokens" } :: st.conns,
              secrets := ⟨"mcp_bearer_tokens", name, raw⟩ :: st.secrets }

/-- Modelled from the spec: `dropConnection(name)` (section 4.1).
Idempotent; removes the connection and its secret; fails with
`connectionInUse` while a registry entry still references the name. -/
def dropConnection (st : RegState) (name : String) : Except RegError RegState :=
  if st.entries.any (fun e => e.connection_name = name) then .error .connectionInUse
  else .ok { st with
    conns := st.conns.filter (fun c => c.name ≠ name),
    secrets := st.secrets.filter (fun s => s.key ≠ name) }

/-- Modelled from the spec: the registry entry created during registration;
`secret_scope` is derived from the flavor, `status` starts `pending`. -/
def mkRegistryEntry (apiId apiName description host basePath docUrl availEndpoints : String)
    (flavor : AuthFlavor) : RegistryEntry :=
  { api_id := apiId, api_name := apiName, description := some description,
    connection_name := apiName, host := host, base_path := some basePath,
    auth_type := flavor, secret_scope := scopeForFlavor flavor,
    documentation_url := some docUrl, available_endpoints := some availEndpoints,
    example_calls := none, status := some "pending", user_who_requested := none,
    created_at := none, modified_date := none, validation_message := none }

/-- Modelled from the spec: `registerApi` creates the connection (and its
secret) and the registry entry referencing it. -/
def registerApi (st : RegState) (apiId apiName description host basePath docUrl
    availEndpoints : String) (flavor : AuthFlavor) (rawSecret : Option String) :
    Except RegError RegState :=
  match createConnection st apiName host basePath flavor rawSecret with
  | .error e => .error e
  | .ok st1 =>
      .ok { st1 with entries :=
        (mkRegistryEntry apiId apiName description host basePath docUrl availEndpoints
          flavor) :: st1.entries }

/-- Modelled from the spec: the call executor
`execute(connectionName, path, method, params, headers)` (section 4.2).
Resolves the connection, computes the effective URL
`host ++ basePath ++ path` for the caller-supplied, unconstrained path,
and branches on the auth flavor: pass-through for `noAuth`; for `apiKey`
the secret resolved from `(secretScope, connection.name)` is injected as
the leading `api_key` query parameter so that caller parameters never
override it; for `bearerToken` the connection itself carries the
credential and nothing is added. -/
def execute (conns : List Connection) (secrets : List SecretEntry)
    (connectionName path method : String)
    (params headers : List (String × String)) : Except CallError HttpRequest :=
  match resolveConn conns connectionName with
  | none => .error .notFound
  | some conn =>
      let url := conn.host ++ conn.basePath ++ path
      match conn.authFlavor with
      | .noAuth => .ok ⟨method, url, params, headers, false⟩
      | .apiKey =>
          match conn.secretScope with
          | none => .error .missingSecret
          | some scope =>
              match getSecret secrets scope conn.name with
              | none => .error .missingSecret
              | some v => .ok ⟨method, url, ("api_key", v) :: params, headers, true⟩
      | .bearerToken => .ok ⟨method, url, params, headers, true⟩

/-- Modelled from the spec: `callApi` resolves the registry entry by API
name and forwards to the executor; the entry's `available_endpoints` field
is informational and is not consulted. -/
def callApi (st : RegState) (apiName path method : String)
    (params headers : List (String × String)) : Except CallError HttpRequest :=
  match st.entries.find? (fun e => e.api_name = apiName) with
  | none => .error .notFound
  | some e => execute st.conns st.secrets e.connection_name path method params headers

/-! ## Registry entry update (RegistryPage.tsx) -/

/-- The update request `handleSaveEdit` sends to
`/api/registry/update/(api_id)`: only `api_name`, `description` and
(when provided) `documentation_url`. -/
structure UpdateRequest where
  api_name : String
  description : String
  documentation_url : Option String
deriving DecidableEq

/-- Modelled from the spec: the update endpoint applies exactly the fields
the frontend sends, leaving every other column of the row unchanged. -/
def updateRegistryEntry (e : RegistryEntry) (r : UpdateRequest) : RegistryEntry :=
  { e with
    api_name := r.api_name,
    description := some r.description,
    documentation_url :=
      match r.documentation_url with
      | some u => some u
      | none => e.documentation_url }

/-- Apply the update to the entry carrying the given `api_id`. -/
def updateApi (st : RegState) (apiId : String) (r : UpdateRequest) : RegState :=
  { st with entries :=
      st.entries.map (fun e => if e.api_id = apiId then updateRegistryEntry e r else e) }

/-- Delete the registry entry with the given `api_id`
(the entry is deleted independently of the connection). -/
def deleteApi (st : RegState) (apiId : String) : RegState :=
  { st with entries := st.entries.filter (fun e => e.api_id ≠ apiId) }

/-! ## Operations as a step relation (for the state invariants) -/

/-- The mutating operations on the shared registry state. -/
inductive RegOp
  | register (apiId apiName description host basePath docUrl availEndpoints : String)
      (flavor : AuthFlavor) (rawSecret : Option String)
  | drop (name : String)
  | update (apiId : String) (r : UpdateRequest)
  | delete (apiId : String)

/-- One step of the registry: failed operations leave the state unchanged. -/
def stepOp (st : RegState) : RegOp → RegState
  | .register apiId apiName description host basePath docUrl availEndpoints flavor raw =>
      match registerApi st apiId apiName description host basePath docUrl availEndpoints
          flavor raw with
      | .ok st1 => st1
      | .error _ => st
  | .drop name =>
      match dropConnection st name with
      | .ok st1 => st1
      | .error _ => st
  | .update apiId r => updateApi st apiId r
  | .delete apiId => deleteApi st apiId

/-- The auth-flavor/secret-scope coupling invariant of a connection:
`noAuth` exactly when the secret scope reference is absent. -/
def connInv (c : Connection) : Prop :=
  (c.authFlavor = .noAuth → c.secretScope = none)
    ∧ (c.authFlavor ≠ .noAuth → c.secretScope ≠ none)

instance (c : Connection) : Decidable (connInv c) := by
  unfold connInv; infer_instance

/-! ## Tool dispatch bridge -/

/-- The operation set of the tool dispatch bridge. -/
inductive ToolCall
  | register (apiId apiName description host basePath docUrl availEndpoints : String)
      (flavor : AuthFlavor) (rawSecret : Option String)
  | lookup (apiName : String)
  | call (apiName path method : String) (params headers : List (String × String))
  | delete (apiId : String)

/-- Result payload of a bridge operation. -/
inductive ToolOutcome
  | registered
  | regFailed (e : RegError)
  | found (e : RegistryEntry)
  | lookupMiss
  | request (r : HttpRequest)
  | callFailed (e : CallError)
  | deleted
deriving DecidableEq

/-- The single shared tool implementation both entry points dispatch to
(modelled from the spec's Tool Dispatch Bridge, section 4.3, and the
hybrid-MCP description: both paths resolve to the same registry and
executor calls). -/
def toolImpl (st : RegState) : ToolCall → ToolOutcome × RegState
  | .register apiId apiName description host basePath docUrl availEndpoints flavor raw =>
      match registerApi st apiId apiName description host basePath docUrl availEndpoints
          flavor raw with
      | .ok st1 => (.registered, st1)
      | .error e => (.regFailed e, st)
  | .lookup apiName =>
      match st.entries.find? (fun e => e.api_name = apiName) with
      | some e => (.found e, st)
      | none => (.lookupMiss, st)
  | .call apiName path method params headers =>
      match callApi st apiName path method params headers with
      | .ok r => (.request r, st)
      | .error e => (.callFailed e, st)
  | .delete apiId => (.deleted, deleteApi st apiId)

/-- The direct in-process path: the orchestration loop invokes the shared
implementation as a plain function call. -/
def directDispatch (st : RegState) (c : ToolCall) : ToolOutcome × RegState :=
  toolImpl st c

/-- Protocol envelope of a request arriving at the external endpoint. -/
structure ProtocolRequest where
  tool : ToolCall

/-- Protocol envelope of the response returned to the external client. -/
structure ProtocolResponse where
  outcome : ToolOutcome
deriving DecidableEq

/-- The protocol path: unwrap the envelope, dispatch to the same shared
implementation, wrap the result. -/
def protocolDispatch (st : RegState) (req : ProtocolRequest) :
    ProtocolResponse × RegState :=
  let out := toolImpl st req.tool
  (⟨out.1⟩, out.2)

/-! ## Tool-name-level dispatch and the prompt's free-text sequence rules -/

/-- The tools registered on the MCP server, per the workflow prompt and the
build documentation. -/
def mcpTools : List String :=
  ["check_api_http_registry", "execute_api_call", "execute_dbsql",
   "call_parameterized_api", "register_api", "fetch_api_documentation",
   "discover_api_endpoint", "test_http_connection", "list_http_connections"]

/-- Dispatch as the build documentation shows it:
`mcp_server._tool_manager.call_tool(tool_name, args)` looks the tool up by
name in the shared registry and invokes it; whether a call is accepted
depends only on the tool being registered, never on the history of earlier
calls in the transaction. -/
def bridgeAccepts (registeredTools historyThisTurn : List String)
    (call : String) : Bool :=
  let _ := historyThisTurn
  registeredTools.contains call

/-- The TOOL CALL SEQUENCE VALIDATOR of `prompts/api_registry_workflow.md`:
a free-text rule addressed to the agent, requiring `check_api_http_registry`
before `execute_dbsql` or `call_parameterized_api` and
`fetch_api_documentation` before `register_api`, all within the same turn. -/
def promptSequenceOk (historyThisTurn : List String) (call : String) : Bool :=
  if call = "execute_dbsql" ∨ call = "call_parameterized_api" then
    historyThisTurn.contains "check_api_http_registry"
  else if call = "register_api" then
    historyThisTurn.contains "fetch_api_documentation"
  else true

/-! ## Theorems -/

/-- C1: contrary to the claim that the raw secret value never appears in
logs, the registration flow's credential submit handler logs a preview of
the raw credential: for the credential value `abc123` (any value of at
most ten characters) the logged line contains the entire raw secret. -/
theorem C1_raw_secret_in_log :
    ∃ pre post : String,
      credentialPreviewLog "abc123" = pre ++ "abc123" ++ post :=
  ⟨"🔐 [Frontend] Credential preview: ", "...", by decide⟩

/-- State and request after submitting the API key `sek-12345` in the
credential dialog, starting from an empty conversation. -/
def afterCredentialSubmit : Option (FrontendState × ChatRequestBody) :=
  submitCredential ⟨[], [], "sek-12345"⟩ true "api_key" "sek-12345" "fred_api" "" 0

/-- The credentials metadata of the next, unrelated chat request sent after
the registration completed. -/
def nextRequestCredentials : CredMap :=
  match afterCredentialSubmit with
  | some (st, _) => (sendMessage st "show me GDP data").2.credentials
  | none => []

/-- C3 counterexample: the raw credential submitted during registration is
kept in the session credential store and is sent again, unchanged, with
the next unrelated chat request — it is not cleared when the registration
operation ends. -/
theorem C3_credential_persists :
    nextRequestCredentials = [("api_key", "sek-12345")]
      ∧ afterCredentialSubmit ≠ none := by
  constructor
  · decide
  · decide

/-- C3 (amended): the submit handler keeps the raw credential out of
message content (the appended messages are identical whatever the secret
is), clears the input field, and stores the credential in the session
store, from which every later chat request picks it up as metadata. -/
theorem C3_amended_credential_flow (st : FrontendState)
    (ct v1 v2 apiName epl : String) (n : Nat)
    (st1 st2 : FrontendState) (b1 b2 : ChatRequestBody)
    (h1 : submitCredential st true ct v1 apiName epl n = some (st1, b1))
    (h2 : submitCredential st true ct v2 apiName epl n = some (st2, b2)) :
    st1.messages = st2.messages
      ∧ b1.messages = b2.messages
      ∧ st1.credentialValue = ""
      ∧ st1.storedCredentials.lookup ct = some v1
      ∧ ∀ input, ((sendMessage st1 input).2).credentials.lookup ct = some v1 := by
  unfold submitCredential at h1 h2
  split at h1
  · simp at h1
  · split at h2
    · simp at h2
    · simp only [Option.some.injEq, Prod.mk.injEq] at h1 h2
      obtain ⟨hst1, hb1⟩ := h1
      obtain ⟨hst2, hb2⟩ := h2
      subst hst1
      subst hst2
      subst hb1
      subst hb2
      refine ⟨rfl, rfl, rfl, ?_, ?_⟩
      · simp [insertCred, List.lookup]
      · intro input
        simp [sendMessage, insertCred, List.lookup]

/-- C3 amended, witness at a concrete input: the store resulting from a
concrete submit indeed retains the raw credential. -/
theorem C3_amended_credential_flow_witness :
    ([("api_key", "k1")] : CredMap).lookup "api_key" = some "k1" := by
  have h := C3_amended_credential_flow ⟨[], [], "k1"⟩ "api_key" "k1" "k2" "fred_api" "" 0
    ⟨[⟨"user", safeMessageText true "api_key" "fred_api" "" 0⟩,
      ⟨"assistant", "Thinking..."⟩], [("api_key", "k1")], ""⟩
    ⟨[⟨"user", safeMessageText true "api_key" "fred_api" "" 0⟩,
      ⟨"assistant", "Thinking..."⟩], [("api_key", "k2")], ""⟩
    ⟨[⟨"user", safeMessageText true "api_key" "fred_api" "" 0⟩], [("api_key", "k1")]⟩
    ⟨[⟨"user", safeMessageText true "api_key" "fred_api" "" 0⟩], [("api_key", "k2")]⟩
    (by decide) (by decide)
  exact h.2.2.2.1

/-- Finding an entry by API name commutes with rewriting the
informational `available_endpoints` field. -/
theorem find_entry_map_available_endpoints (entries : List RegistryEntry)
    (f : RegistryEntry → Option String) (apiName : String) :
    (entries.map (fun e => { e with available_endpoints := f e })).find?
        (fun e => e.api_name = apiName)
      = (entries.find? (fun e => e.api_name = apiName)).map
          (fun e => { e with available_endpoints := f e }) := by
  induction entries with
  | nil => rfl
  | cons e rest ih =>
      by_cases h : e.api_name = apiName
      · simp [List.find?, h]
      · simp [List.find?, h, ih]

/-- Whether the executor succeeds never depends on the requested path. -/
theorem execute_isOk_path_independent (conns : List Connection)
    (secrets : List SecretEntry) (n p1 p2 method : String)
    (params headers : List (String × String)) :
    (execute conns secrets n p1 method params headers).isOk
      = (execute conns secrets n p2 method params headers).isOk := by
  unfold execute
  cases hres : resolveConn conns n with
  | none => rfl
  | some conn =>
      obtain ⟨nm, hs, bp, fl, sc⟩ := conn
      cases fl with
      | noAuth => rfl
      | apiKey =>
          cases sc with
          | none => rfl
          | some scope =>
              cases hsec : getSecret secrets scope nm with
              | none => simp [hsec, Except.isOk, Except.toBool]
              | some v => simp [hsec, Except.isOk, Except.toBool]
      | bearerToken => rfl

/-- C2: `callApi` never enforces `available_endpoints` as a whitelist:
rewriting the field arbitrarily changes nothing about the call, and a call
that succeeds for one path succeeds for every caller-supplied path. -/
theorem C2_path_unconstrained (st : RegState) (f : RegistryEntry → Option String)
    (apiName p1 p2 method : String) (params headers : List (String × String)) :
    callApi { st with entries :=
        st.entries.map (fun e => { e with available_endpoints := f e }) }
        apiName p1 method params headers
      = callApi st apiName p1 method params headers
    ∧ (callApi st apiName p1 method params headers).isOk
        = (callApi st apiName p2 method params headers).isOk := by
  constructor
  · unfold callApi
    rw [find_entry_map_available_endpoints]
    cases st.entries.find? (fun e => e.api_name = apiName) with
    | none => rfl
    | some e => rfl
  · unfold callApi
    cases st.entries.find? (fun e => e.api_name = apiName) with
    | none => rfl
    | some e => exact execute_isOk_path_independent _ _ _ _ _ _ _ _

/-- The registry state after registering the FRED API with an API key. -/
def fredRegistered : RegState :=
  { conns := [{ name := "fred_api", host := "https://api.stlouisfed.org",
                basePath := "/fred", authFlavor := .apiKey,
                secretScope := some "mcp_api_keys" }],
    entries := [mkRegistryEntry "id1" "fred_api" "FRED" "api.stlouisfed.org" "/fred"
        "https://fred.stlouisfed.org/docs/api/" "[]" .apiKey],
    secrets := [⟨"mcp_api_keys", "fred_api", "XYZ"⟩] }

/-- C4 counterexample: the dispatch bridge carries no resolve-then-call
precondition.  With an empty call history the free-text prompt rule judges
`execute_dbsql` forbidden, yet the bridge accepts it; likewise a call
operation executes through the bridge without any registry lookup in the
same transaction. -/
theorem C4_no_bridge_precondition :
    promptSequenceOk [] "execute_dbsql" = false
      ∧ bridgeAccepts mcpTools [] "execute_dbsql" = true
      ∧ (directDispatch fredRegistered
            (.call "fred_api" "/series/observations" "GET" [] [])).1
          = .request ⟨"GET", "https://api.stlouisfed.org/fred/series/observations",
              [("api_key", "XYZ")], [], true⟩ := by
  refine ⟨by decide, by decide, by decide⟩

/-- C4 (amended): whether the bridge accepts a tool call is independent of
the call history — the resolve-then-call discipline lives only in the
free-text prompt rules, not as a precondition inside the bridge. -/
theorem C4_dispatch_history_independent (tools h1 h2 : List String) (call : String) :
    bridgeAccepts tools h1 call = bridgeAccepts tools h2 call
      ∧ bridgeAccepts mcpTools [] "execute_api_call" = true :=
  ⟨rfl, by decide⟩

/-- A successful `createConnection` preserves the auth-flavor/secret-scope
invariant on every stored connection. -/
theorem createConnection_preserves_connInv (st : RegState)
    (name host basePath : String) (flavor : AuthFlavor) (raw : Option String)
    (st1 : RegState)
    (hok : createConnection st name host basePath flavor raw = .ok st1)
    (h : ∀ c ∈ st.conns, connInv c) : ∀ c ∈ st1.conns, connInv c := by
  unfold createConnection at hok
  split at hok
  · exact absurd hok (by simp)
  · cases flavor with
    | noAuth =>
        simp only [Except.ok.injEq] at hok
        subst hok
        intro c hc
        rcases List.mem_cons.mp hc with rfl | hc
        · simp [connInv]
        · exact h c hc
    | apiKey =>
        cases raw with
        | none => exact absurd hok (by simp)
        | some r =>
            simp only [Except.ok.injEq] at hok
            subst hok
            intro c hc
            rcases List.mem_cons.mp hc with rfl | hc
            · simp [connInv]
            · exact h c hc
    | bearerToken =>
        cases raw with
        | none => exact absurd hok (by simp)
        | some r =>
            simp only [Except.ok.injEq] at hok
            subst hok
            intro c hc
            rcases List.mem_cons.mp hc with rfl | hc
            · simp [connInv]
            · exact h c hc

/-- A successful `registerApi` preserves the connection invariant (the
entry added alongside does not touch the connection list). -/
theorem registerApi_preserves_connInv (st : RegState)
    (apiId apiName description host basePath docUrl availEndpoints : String)
    (flavor : AuthFlavor) (raw : Option String) (st1 : RegState)
    (hok : registerApi st apiId apiName description host basePath docUrl
        availEndpoints flavor raw = .ok st1)
    (h : ∀ c ∈ st.conns, connInv c) : ∀ c ∈ st1.conns, connInv c := by
  unfold registerApi at hok
  cases hok2 : createConnection st apiName host basePath flavor raw with
  | error e =>
      rw [hok2] at hok
      exact absurd hok (by simp)
  | ok st0 =>
      rw [hok2] at hok
      simp only [Except.ok.injEq] at hok
      subst hok
      exact createConnection_preserves_connInv st apiName host basePath flavor raw
        st0 hok2 h

/-- C5: every operation preserves the invariant that a connection has no
secret scope exactly when its auth flavor is `none`, and a non-`none`
flavor always carries a scope. -/
theorem C5_auth_scope_invariant (st : RegState) (op : RegOp)
    (h : ∀ c ∈ st.conns, connInv c) :
    ∀ c ∈ (stepOp st op).conns, connInv c := by
  cases op with
  | register apiId apiName description host basePath docUrl availEndpoints flavor raw =>
      simp only [stepOp]
      cases hok : registerApi st apiId apiName description host basePath docUrl
          availEndpoints flavor raw with
      | error e => exact h
      | ok st1 =>
          exact registerApi_preserves_connInv st apiId apiName description host
            basePath docUrl availEndpoints flavor raw st1 hok h
  | drop name =>
      simp only [stepOp]
      cases hok : dropConnection st name with
      | error e => exact h
      | ok st1 =>
          intro c hc
          unfold dropConnection at hok
          split at hok
          · exact absurd hok (by simp)
          · simp only [Except.ok.injEq] at hok
            subst hok
            exact h c (List.mem_filter.mp hc).1
  | update apiId r =>
      exact fun c hc => h c hc
  | delete apiId =>
      exact fun c hc => h c hc

/-- C5 witness: the connection created by a concrete API-key registration
satisfies the invariant. -/
theorem C5_auth_scope_invariant_witness :
    connInv { name := "fred_api", host := "https://api.stlouisfed.org",
              basePath := "/fred", authFlavor := .apiKey,
              secretScope := some "mcp_api_keys" } :=
  C5_auth_scope_invariant ⟨[], [], []⟩
    (RegOp.register "id1" "fred_api" "FRED" "api.stlouisfed.org" "/fred"
      "https://fred.stlouisfed.org/docs/api/" "[]" .apiKey (some "XYZ"))
    (by simp) _ (by decide)

/-- C6: for an API-key connection the executor injects the secret resolved
from `(secretScope, connection.name)` as the leading `api_key` query
parameter; the lookup of `api_key` in the resulting parameters always
yields the injected secret (caller parameters never override it) while
every other caller parameter is preserved. -/
theorem C6_api_key_injection (conns : List Connection) (secrets : List SecretEntry)
    (n path method scope v : String) (conn : Connection)
    (params headers : List (String × String))
    (hres : resolveConn conns n = some conn)
    (hflav : conn.authFlavor = .apiKey)
    (hscope : conn.secretScope = some scope)
    (hsec : getSecret secrets scope conn.name = some v) :
    execute conns secrets n path method params headers
      = .ok ⟨method, conn.host ++ conn.basePath ++ path,
          ("api_key", v) :: params, headers, true⟩
    ∧ (("api_key", v) :: params).lookup "api_key" = some v
    ∧ ∀ k, k ≠ "api_key" → (("api_key", v) :: params).lookup k = params.lookup k := by
  refine ⟨?_, ?_, ?_⟩
  · simp only [execute, hres, hflav, hscope, hsec]
  · simp [List.lookup]
  · intro k hk
    simp [List.lookup, beq_eq_false_iff_ne.mpr hk]

/-- C6 witness: the round-trip of spec section 8 — register `fred_api` with
key `k1`, call `/p` with a caller-supplied `api_key` of its own; the
injected key wins the lookup. -/
theorem C6_api_key_injection_witness :
    execute [⟨"fred_api", "https://api.stlouisfed.org", "/fred", .apiKey,
        some "mcp_api_keys"⟩]
      [⟨"mcp_api_keys", "fred_api", "k1"⟩] "fred_api" "/p" "GET"
      [("api_key", "callerval")] []
      = .ok ⟨"GET", "https://api.stlouisfed.org/fred/p",
          [("api_key", "k1"), ("api_key", "callerval")], [], true⟩
    ∧ ([("api_key", "k1"), ("api_key", "callerval")] :
        List (String × String)).lookup "api_key" = some "k1" := by
  have h := C6_api_key_injection
    [⟨"fred_api", "https://api.stlouisfed.org", "/fred", .apiKey, some "mcp_api_keys"⟩]
    [⟨"mcp_api_keys", "fred_api", "k1"⟩] "fred_api" "/p" "GET" "mcp_api_keys" "k1"
    ⟨"fred_api", "https://api.stlouisfed.org", "/fred", .apiKey, some "mcp_api_keys"⟩
    [("api_key", "callerval")] [] (by decide) rfl rfl (by decide)
  refine ⟨?_, h.2.1⟩
  rw [h.1]
  rfl

/-- C7: the effective URL of every successful call is
`host ++ basePath ++ path`. -/
theorem C7_effective_url (conns : List Connection) (secrets : List SecretEntry)
    (n path method : String) (conn : Connection)
    (params headers : List (String × String)) (req : HttpRequest)
    (hres : resolveConn conns n = some conn)
    (hok : execute conns secrets n path method params headers = .ok req) :
    req.url = conn.host ++ conn.basePath ++ path := by
  obtain ⟨nm, hs, bp, fl, sc⟩ := conn
  simp only [execute, hres] at hok
  split at hok
  · simp only [Except.ok.injEq] at hok
    rw [← hok]
  · split at hok
    · exact absurd hok (by simp)
    · split at hok
      · exact absurd hok (by simp)
      · simp only [Except.ok.injEq] at hok
        rw [← hok]
  · simp only [Except.ok.injEq] at hok
    rw [← hok]

/-- C7 witness: the FRED scenario — host `api.stlouisfed.org`, base path
`/fred`, call path `/series/observations` — yields the effective URL
`https://api.stlouisfed.org/fred/series/observations`. -/
theorem C7_effective_url_witness :
    ({ method := "GET", url := "https://api.stlouisfed.org/fred/series/observations",
       params := [("api_key", "XYZ"), ("series_id", "GDPC1")], headers := [],
       authApplied := true } : HttpRequest).url
      = "https://api.stlouisfed.org" ++ "/fred" ++ "/series/observations" :=
  C7_effective_url
    [⟨"fred_api", "https://api.stlouisfed.org", "/fred", .apiKey, some "mcp_api_keys"⟩]
    [⟨"mcp_api_keys", "fred_api", "XYZ"⟩] "fred_api" "/series/observations" "GET"
    ⟨"fred_api", "https://api.stlouisfed.org", "/fred", .apiKey, some "mcp_api_keys"⟩
    [("series_id", "GDPC1")] []
    { method := "GET", url := "https://api.stlouisfed.org/fred/series/observations",
      params := [("api_key", "XYZ"), ("series_id", "GDPC1")], headers := [],
      authApplied := true }
    (by decide) rfl

/-- C8: every authenticated registration stores the secret in one of
exactly the two conventional scopes, the scope determined by the flavor,
under a key exactly equal to the API's logical name, and the created
connection references that same scope. -/
theorem C8_secret_naming (st : RegState) (name host basePath : String)
    (flavor : AuthFlavor) (raw : String) (st1 : RegState)
    (hflav : flavor ≠ .noAuth)
    (hok : createConnection st name host basePath flavor (some raw) = .ok st1) :
    st1.secrets.head? = some ⟨(scopeForFlavor flavor).getD "", name, raw⟩
      ∧ ((scopeForFlavor flavor).getD "" = "mcp_api_keys"
          ∨ (scopeForFlavor flavor).getD "" = "mcp_bearer_tokens")
      ∧ st1.conns.head?.map Connection.secretScope = some (scopeForFlavor flavor)
      ∧ st1.conns.head?.map Connection.name = some name := by
  unfold createConnection at hok
  split at hok
  · exact absurd hok (by simp)
  · cases flavor with
    | noAuth => exact absurd rfl hflav
    | apiKey =>
        simp only [Except.ok.injEq] at hok
        subst hok
        exact ⟨rfl, Or.inl rfl, rfl, rfl⟩
    | bearerToken =>
        simp only [Except.ok.injEq] at hok
        subst hok
        exact ⟨rfl, Or.inr rfl, rfl, rfl⟩

/-- The registry state after registering the GitHub API with a bearer
token, starting from the empty state. -/
def githubRegistered : RegState :=
  { conns := [{ name := "github_api", host := "https://api.github.com", basePath := "",
                authFlavor := .bearerToken, secretScope := some "mcp_bearer_tokens" }],
    entries := [],
    secrets := [⟨"mcp_bearer_tokens", "github_api", "ghp_tok"⟩] }

/-- C8 witness: a concrete bearer-token registration lands in
`mcp_bearer_tokens` under the key `github_api`. -/
theorem C8_secret_naming_witness :
    githubRegistered.secrets.head?
        = some ⟨(scopeForFlavor .bearerToken).getD "", "github_api", "ghp_tok"⟩
      ∧ ((scopeForFlavor .bearerToken).getD "" = "mcp_api_keys"
          ∨ (scopeForFlavor .bearerToken).getD "" = "mcp_bearer_tokens")
      ∧ githubRegistered.conns.head?.map Connection.secretScope
          = some (scopeForFlavor .bearerToken)
      ∧ githubRegistered.conns.head?.map Connection.name = some "github_api" :=
  C8_secret_naming ⟨[], [], []⟩ "github_api" "api.github.com" "" .bearerToken
    "ghp_tok" githubRegistered (by decide) rfl

/-- C9: the direct in-process path and the external protocol path dispatch
to the one shared tool implementation, so for every operation and state
they produce the same outcome and the same post-state. -/
theorem C9_dual_path_equiv (st : RegState) (c : ToolCall) :
    (protocolDispatch st ⟨c⟩).1.outcome = (directDispatch st c).1
      ∧ (protocolDispatch st ⟨c⟩).2 = (directDispatch st c).2 :=
  ⟨rfl, rfl⟩

/-- C10: the update operation rewrites only `api_name`, `description` and
`documentation_url`; the connection reference, host, base path, auth
configuration and every other column of the entry are unchanged. -/
theorem C10_update_frame (e : RegistryEntry) (r : UpdateRequest) :
    (updateRegistryEntry e r).api_id = e.api_id
      ∧ (updateRegistryEntry e r).connection_name = e.connection_name
      ∧ (updateRegistryEntry e r).host = e.host
      ∧ (updateRegistryEntry e r).base_path = e.base_path
      ∧ (updateRegistryEntry e r).auth_type = e.auth_type
      ∧ (updateRegistryEntry e r).secret_scope = e.secret_scope
      ∧ (updateRegistryEntry e r).available_endpoints = e.available_endpoints
      ∧ (updateRegistryEntry e r).example_calls = e.example_calls
      ∧ (updateRegistryEntry e r).status = e.status
      ∧ (updateRegistryEntry e r).user_who_requested = e.user_who_requested
      ∧ (updateRegistryEntry e r).created_at = e.created_at
      ∧ (updateRegistryEntry e r).modified_date = e.modified_date
      ∧ (updateRegistryEntry e r).validation_message = e.validation_message
      ∧ (updateRegistryEntry e r).api_name = r.api_name
      ∧ (updateRegistryEntry e r).description = some r.description :=
  ⟨rfl, rfl, rfl, rfl, rfl, rfl, rfl, rfl, rfl, rfl, rfl, rfl, rfl, rfl, rfl⟩

end McpApiRegistry
